import Mathlib

/-!
Verification of the ATR decode engine of `parseATR/parseATR.py`
(pyscard-contrib).  The Python module is shallowly embedded: the
byte normalizer, the structural decomposer (interface-byte chain walk),
the per-field semantic interpreters, the historical-byte / compact-TLV
analyzer and the checksum validator are translated into executable Lean
definitions.  Python's mutable global protocol variable `T` is made an
explicit state value threaded through the interpreters; Python
exceptions (`ParseAtrException` for odd hex strings, `ValueError` for
non-hex digits, `IndexError` for out-of-range reads) become
`Except.error` values.  Loops that consume the byte list are written
with an explicit fuel argument so that all definitions compute by
kernel reduction; callers always pass a fuel that exceeds the number of
iterations (one byte is consumed per iteration), so the fuel-exhaustion
branch is unreachable from the entry points.
-/

namespace ParseATR

/-- A substitution value of a message template (Python keeps ints,
strings and floats in the args tuple; floats are embedded as `ℚ`). -/
inductive Arg where
  | i : Int → Arg
  | s : String → Arg
  | q : ℚ → Arg
deriving DecidableEq, Repr

/-- A structured description: either a pre-rendered string or a
template with `%`-style placeholders plus ordered substitution values,
mirroring the `[text, args]` pairs built by the Python interpreters. -/
inductive Desc where
  | str : String → Desc
  | msg : String → List Arg → Desc
deriving DecidableEq, Repr

end ParseATR

deriving instance DecidableEq for Except

namespace ParseATR

/-- One hexadecimal digit, upper case (as produced by Python `%X`). -/
def hexDigit (n : ℕ) : Char :=
  if n < 10 then Char.ofNat (48 + n) else Char.ofNat (55 + n)

/-- Upper-case hexadecimal digits of `n` (empty for 0). -/
def hexCore (fuel n : ℕ) : List Char :=
  match fuel with
  | 0 => []
  | fuel + 1 => if n = 0 then [] else hexCore fuel (n / 16) ++ [hexDigit (n % 16)]

/-- Python `"%02X" % b`: upper-case hex, zero padded to width 2. -/
def byteHex (b : ℕ) : String :=
  let ds := hexCore (b + 1) b
  String.mk (List.replicate (2 - ds.length) '0' ++ ds)

/-- `toHexString`: hex list separated by spaces. -/
def toHexString (bytes : List ℕ) : String :=
  String.intercalate " " (bytes.map byteHex)

/-- `toASCIIString`: printable bytes as characters, the rest as `.`. -/
def toASCIIString (bytes : List ℕ) : String :=
  String.mk (bytes.map (fun b => if 31 < b ∧ b < 127 then Char.ofNat b else '.'))

/-- Binary digits of `i` (empty for 0), as in the loop of `int2bin`. -/
def binCore (fuel i : ℕ) : List Char :=
  match fuel with
  | 0 => []
  | fuel + 1 =>
    if i = 0 then [] else binCore fuel (i / 2) ++ [if i % 2 = 1 then '1' else '0']

/-- `int2bin`: binary representation left-padded with zeroes. -/
def int2bin (i : ℕ) (padding : ℕ) : String :=
  let b := binCore (i + 1) i
  String.mk (List.replicate (padding - b.length) '0' ++ b)

/-- Value of a hexadecimal digit character (Python `int(_, 16)` accepts
both cases); `none` for a non-hex character (Python raises
`ValueError`). -/
def hexVal (c : Char) : Option ℕ :=
  let n := c.toNat
  if 48 ≤ n ∧ n ≤ 57 then some (n - 48)
  else if 65 ≤ n ∧ n ≤ 70 then some (n - 55)
  else if 97 ≤ n ∧ n ≤ 102 then some (n - 87)
  else none

/-- Parse the 2-character groups of the separator-stripped hex string. -/
def parsePairs : List Char → Except String (List ℕ)
  | [] => .ok []
  | [_] => .error "ParseAtrException: odd string"
  | c1 :: c2 :: rest =>
    match hexVal c1, hexVal c2 with
    | some h, some l =>
      match parsePairs rest with
      | .ok bs => .ok ((16 * h + l) :: bs)
      | .error e => .error e
    | _, _ => .error "ValueError"

/-- `normalize`: strip `:` and space separators, group the hex digits
in pairs and convert them to byte values.  As in the source, the
odd-length check happens before any digit conversion, so a dangling
nibble raises `ParseAtrException` even when other characters are not
hex; a non-hex pair then raises `ValueError`. -/
def normalizeChars (cs : List Char) : Except String (List ℕ) :=
  let stripped := cs.filter (fun c => ¬ (c = ':' ∨ c = ' '))
  if stripped.length % 2 = 1 then .error "ParseAtrException: odd string"
  else parsePairs stripped

def normalize (s : String) : Except String (List ℕ) :=
  normalizeChars s.data

/-- A `{value, description}` pair of the ATR record. -/
structure Field where
  value : ℕ
  description : Option Desc := none
deriving DecidableEq, Repr

/-- The TCK entry (its value is `-1` when the checksum byte is
declared but missing, per the `IndexError` handler). -/
structure TCKField where
  value : Int
  description : Option Desc := none
deriving DecidableEq, Repr

/-- Description produced by `analyse_historical_bytes`: Python returns
`None` for an empty block, a one-element list `[text]` when the
category-0 status trailer is missing, and `[left, [text, args]]`
otherwise. -/
inductive HbDesc where
  | null : HbDesc
  | single : String → HbDesc
  | full : String → String → List Arg → HbDesc
deriving DecidableEq, Repr

/-- State of the interface-byte chain walk in `decomposeATR`: the four
assoc lists keyed by protocol number, the protocol number `pn`, the
cursor `pointer` (index of the last consumed byte) and the
checksum-expected flag (`atr["TCK"] = True`). -/
structure ChainState where
  TA : List (ℕ × ℕ)
  TB : List (ℕ × ℕ)
  TC : List (ℕ × ℕ)
  TD : List (ℕ × ℕ)
  pn : ℕ
  pointer : ℕ
  tckExpected : Bool
deriving DecidableEq, Repr

/-- Read a byte at an index; an out-of-range index is Python's
`IndexError`. -/
def readAt (bs : List ℕ) (idx : ℕ) : Except String ℕ :=
  match bs.get? idx with
  | some v => .ok v
  | none => .error "IndexError"

/-- Read one interface byte when its presence bit demands it. -/
def readIf (present : Bool) (bs : List ℕ) (idx : ℕ) : Except String (Option ℕ) :=
  if present then
    match bs.get? idx with
    | some v => .ok (some v)
    | none => .error "IndexError"
  else .ok none

/-- Append `(pn, v)` when a byte was read. -/
def appOpt (l : List (ℕ × ℕ)) (pn : ℕ) : Option ℕ → List (ℕ × ℕ)
  | some v => l ++ [(pn, v)]
  | none => l

/-- The `while pointer < len(atr_txt)` loop of `decomposeATR`.  Each
iteration re-tests the four presence bits against the current `TDi`
(`(TDi | mask) == 0xFF`), consumes one byte per present interface byte
in the fixed order TA, TB, TC, TD, replaces `TDi` and increments the
protocol number exactly when a TD byte was read, and stops at the
first block without a TD byte.  `fuel` only bounds the number of
iterations; since every iteration that recurses consumes at least one
byte, any `fuel ≥ bs.length` makes the fuel branch unreachable. -/
def chainLoop (bs : List ℕ) : ℕ → ℕ → List (ℕ × ℕ) → List (ℕ × ℕ) →
    List (ℕ × ℕ) → List (ℕ × ℕ) → ℕ → ℕ → Bool → Except String ChainState
  | 0, _, _, _, _, _, _, _, _ => .error "OUT OF FUEL"
  | fuel + 1, TDi, TAl, TBl, TCl, TDl, pn, p, tck =>
    if p < bs.length then
      match readIf ((TDi ||| 0xEF) = 0xFF) bs (p + 1) with
      | .error e => .error e
      | .ok vA =>
        let nA := if vA.isSome then 1 else 0
        match readIf ((TDi ||| 0xDF) = 0xFF) bs (p + 1 + nA) with
        | .error e => .error e
        | .ok vB =>
          let nB := if vB.isSome then 1 else 0
          match readIf ((TDi ||| 0xBF) = 0xFF) bs (p + 1 + nA + nB) with
          | .error e => .error e
          | .ok vC =>
            let nC := if vC.isSome then 1 else 0
            if (TDi ||| 0x7F) = 0xFF then
              match readAt bs (p + 1 + nA + nB + nC) with
              | .error e => .error e
              | .ok vD =>
                chainLoop bs fuel vD (appOpt TAl pn vA) (appOpt TBl pn vB)
                  (appOpt TCl pn vC) (TDl ++ [(pn, vD)]) (pn + 1)
                  (p + 1 + nA + nB + nC) (tck || decide (vD % 16 ≠ 0))
            else
              .ok ⟨appOpt TAl pn vA, appOpt TBl pn vB, appOpt TCl pn vC,
                   TDl, pn, p + nA + nB + nC, tck⟩
    else
      .ok ⟨TAl, TBl, TCl, TDl, pn, p, tck⟩

/-- The decoded ATR record (`decomposeATR` output, with the
description slots that `documentATR` fills in later). -/
structure ATRRec where
  atr : List ℕ
  TS : Field
  T0 : Field
  TA : List (ℕ × Field)
  TB : List (ℕ × Field)
  TC : List (ℕ × Field)
  TD : List (ℕ × Field)
  pn : ℕ
  hbn : ℕ
  hbVal : List ℕ
  hbDesc : Option HbDesc := none
  tck : Option TCKField := none
  extra : Option (List ℕ) := none
  warning : Option String := none
deriving DecidableEq, Repr

/-- The truncated-historical-bytes warning string
(`"ATR is truncated: %d byte%s %s missing"`). -/
def truncMsg (missing : ℕ) : String :=
  if missing > 1 then
    "ATR is truncated: " ++ toString missing ++ " bytes are missing"
  else
    "ATR is truncated: " ++ toString missing ++ " byte is missing"

def toField (kv : ℕ × ℕ) : ℕ × Field := (kv.1, ⟨kv.2, none⟩)

/-- `decomposeATR` after normalization: reads TS and T0 (raising
`IndexError` on fewer than two bytes), walks the interface-byte chain,
slices the declared number of historical bytes, reads the checksum
byte when one is expected (value `-1` if it is missing), stores any
surplus bytes as `extra` and records a truncation warning when fewer
historical bytes are present than declared. -/
def decomposeFromBytes (bs : List ℕ) : Except String ATRRec :=
  match bs.get? 0, bs.get? 1 with
  | some ts, some t0 =>
    match chainLoop bs bs.length t0 [] [] [] [] 1 1 false with
    | .error e => .error e
    | .ok st =>
      let hbLen := t0 % 16
      let hb := (bs.drop (st.pointer + 1)).take hbLen
      let last := st.pointer + 1 + hbLen
      let tck : Option TCKField :=
        if st.tckExpected then
          match bs.get? last with
          | some v => some ⟨(v : Int), none⟩
          | none => some ⟨-1, none⟩
        else none
      let last2 := if st.tckExpected then last + 1 else last
      let extra := if last2 < bs.length then some (bs.drop last2) else none
      let warning :=
        if hb.length < hbLen then some (truncMsg (hbLen - hb.length)) else none
      .ok { atr := bs, TS := ⟨ts, none⟩, T0 := ⟨t0, none⟩,
            TA := st.TA.map toField, TB := st.TB.map toField,
            TC := st.TC.map toField, TD := st.TD.map toField,
            pn := st.pn, hbn := t0 % 16, hbVal := hb,
            tck := tck, extra := extra, warning := warning }
  | _, _ => .error "IndexError"

def decomposeATR (s : String) : Except String ATRRec :=
  match normalize s with
  | .ok bs => decomposeFromBytes bs
  | .error e => .error e

/-! ## Field semantic interpreters -/

/-- The `Fi` lookup table of `TA1_v` (`none` is the `"RFU"` sentinel). -/
def Fi_tab : List (Option ℕ) :=
  [some 372, some 372, some 558, some 744, some 1116, some 1488, some 1860,
   none, none, some 512, some 768, some 1024, some 1536, some 2048, none, none]

/-- The `Di` lookup table of `TA1_v`. -/
def Di_tab : List (Option ℕ) :=
  [none, some 1, some 2, some 4, some 8, some 16, some 32, some 64,
   some 12, some 20, none, none, none, none, none, none]

/-- The `FMax` lookup table of `TA1_v` (in MHz; `7.5` becomes `15/2`). -/
def FMax_tab : List (Option ℚ) :=
  [some 4, some 5, some 6, some 8, some 12, some 16, some 20, none, none,
   some 5, some (15 / 2), some 10, some 15, some 20, none, none]

/-- Result of `TA1_v`: the `(Fi, Di)` pair when either lookup is RFU,
otherwise `(Fi, Di, cycles/ETU, FMax)`. -/
inductive TA1res where
  | invalid : Option ℕ → Option ℕ → TA1res
  | valid : ℕ → ℕ → ℚ → ℚ → TA1res
deriving DecidableEq, Repr

/-- `TA1_v`: split the byte into the Fi index (high nibble) and Di
index (low nibble), look both up, and derive cycles/ETU = Fi/Di plus
the maximum frequency when neither entry is RFU. -/
def TA1_v (v : ℕ) : TA1res :=
  let F := v / 16
  let D := v % 16
  match Fi_tab.getD F none, Di_tab.getD D none with
  | some fi, some di => .valid fi di ((fi : ℚ) / (di : ℚ)) ((FMax_tab.getD F none).getD 0)
  | fi?, di? => .invalid fi? di?

/-- Render a table entry: the number, or the `"RFU"` sentinel. -/
def entryArg : Option ℕ → Arg
  | some n => .i n
  | none => .s "RFU"

/-- `TA1`: `Fi=%s, Di=%s` plus either `, INVALID VALUE` (no rate
computed) or the derived rates (`int()` truncation becomes `⌊·⌋`,
exact for these positive values). -/
def TA1 (v : ℕ) : Desc :=
  match TA1_v v with
  | .invalid fi? di? =>
      .msg "Fi=%s, Di=%s, INVALID VALUE" [entryArg fi?, entryArg di?]
  | .valid fi di value fmax =>
      .msg "Fi=%s, Di=%s, %g cycles/ETU (%d bits/s at 4.00 MHz, %d bits/s for fMax=%d MHz)"
        [.i fi, .i di, .q value, .i ⌊(4000000 : ℚ) / value⌋,
         .i ⌊fmax * 1000000 / value⌋, .q fmax]

/-- `TA2` (pre-rendered string). -/
def TA2 (v : ℕ) : String :=
  let F := v / 16
  let D := v % 16
  "Protocol to be used in spec mode: T=" ++ toString D ++
    (if F &&& 0x8 ≠ 0 then " - Unable to change" else " - Capable to change") ++
    (if F &&& 0x1 ≠ 0 then " - implicity defined" else " - defined by interface bytes")

/-- The clock-stop table `XI` of `TAn`. -/
def XI_tab : List String := ["not supported", "state L", "state H", "no preference"]

/-- `TAn` for 3 ≤ i ≤ 5; reads the protocol context `t` (the Python
global `T`). -/
def TAn (_i : ℕ) (v : ℕ) (t : Int) : Desc :=
  if t = 1 then .msg "IFSC: %s" [.i v]
  else
    let F := v / 64
    let D := v % 64
    let cls := "(3G) " ++
      (if D &&& 0x1 ≠ 0 then "A 5V " else "") ++
      (if D &&& 0x2 ≠ 0 then "B 3V " else "") ++
      (if D &&& 0x4 ≠ 0 then "C 1.8V " else "") ++
      (if D &&& 0x8 ≠ 0 then "D RFU " else "") ++
      (if D &&& 0x10 ≠ 0 then "E RFU" else "")
    .msg "Clock stop: %s - Class accepted by the card: %s"
      [.s (XI_tab.getD F ""), .s cls]

/-- The current-class table `I_tab` of `TB1`. -/
def I_tab (n : ℕ) : String :=
  ["25 milliAmperes", "50 milliAmperes", "100 milliAmperes", "RFU"].getD n ""

/-- `TB1` (pre-rendered string). -/
def TB1 (v : ℕ) : String :=
  let I := (v / 32) % 4
  let PI := v % 32
  if PI = 0 then "VPP is not electrically connected"
  else "Programming Param P: " ++ toString PI ++ " Volts, I: " ++ I_tab I

/-- `TB2` (pre-rendered string). -/
def TB2 (v : ℕ) : String :=
  "Programming param PI2 (PI1 should be ignored): " ++ toString v ++
    (if 49 < v ∧ v < 251 then " (dV)" else " is RFU")

/-- The ETSI TS 102 221 lookup of `TBn` for `T = 15`. -/
def tb15_texts (v : ℕ) : String :=
  if v = 0x00 then "No additional global interface parameters supported"
  else if v = 0x88 then "Secure Channel supported as defined in TS 102 484"
  else if v = 0x8C then "Secured APDU - Platform to Platform required as defined in TS 102 484"
  else if v = 0x82 then "eUICC-related functions supported"
  else if v = 0x90 then "Low Impedance drivers and protocol available on the I/O line available (see clause 7.2.1)"
  else if v = 0xA0 then "UICC-CLF interface supported as defined in TS 102 613"
  else if v = 0xC0 then "Inter-Chip USB UICC-Terminal interface supported as defined in TS 102 600"
  else "RFU"

/-- `TBn` for 3 ≤ i ≤ 5. -/
def TBn (i : ℕ) (v : ℕ) (t : Int) : Desc :=
  if t = 1 then
    .msg "Block Waiting Integer: %d - Character Waiting Integer: %d"
      [.i (v / 16), .i (v % 16)]
  else if 2 < i ∧ t = 15 then .msg (tb15_texts v) []
  else .msg "Undocumented" []

/-- `TC1`. -/
def TC1 (v : ℕ) : Desc :=
  .msg ("Extra guard time: %d" ++ if v = 255 then " (special value)" else "") [.i v]

/-- `TC2` (pre-rendered string). -/
def TC2 (v : ℕ) : String :=
  "Work waiting time: 960 x " ++ toString v ++ " x (Fi/F)"

/-- `TCn` for 3 ≤ i ≤ 5. -/
def TCn (_i : ℕ) (v : ℕ) (t : Int) : Desc :=
  if t = 1 then
    .msg "Error detection code: %s"
      [.s (if v = 1 then "CRC" else if v = 0 then "LRC" else "RFU")]
  else .msg "" []

/-- `TDn`: returns the description and the new protocol context
`T = v & 0xF` (the Python global assignment). -/
def TDn (i : ℕ) (v : ℕ) : Desc × Int :=
  let Y := v / 16
  let t := v % 16
  let text := "Y(i+1) = b%s, Protocol T=%d" ++
    (if i = 1 ∧ t = 15 then " (INVALID VALUE for TD1)" else "")
  (.msg text [.s (int2bin Y 4), .i t], (t : Int))

/-! ## Historical bytes: compact TLV analyzer -/

/-- `life_cycle_status` (chain of `if`s, kept in the Python order). -/
def life_cycle_status (lcs : ℕ) : String :=
  let text := "Unknown"
  let text := if lcs > 15 then "Proprietary" else text
  let text := if lcs = 0 then "No information given" else text
  let text := if lcs = 1 then "Creation state" else text
  let text := if lcs = 3 then "Initialisation state" else text
  let text := if lcs = 4 ∨ lcs = 6 then "Operational state (deactivated)" else text
  let text := if lcs = 5 ∨ lcs = 7 then "Operational state (activated)" else text
  if lcs = 12 ∨ lcs = 13 ∨ lcs = 14 ∨ lcs = 15 then "Termination state" else text

/-- `data_coding`. -/
def data_coding (dc : ℕ) : String :=
  (if dc &&& 128 ≠ 0 then "        - EF of TLV structure supported\n" else "") ++
  "        - Behaviour of write functions: " ++
  (["one-time write\n", "proprietary\n", "write OR\n", "write AND\n"].getD
    ((dc &&& (64 + 32)) / 32) "") ++
  "        - Value 'FF' for the first byte of BER-TLV tag fields: " ++
  (if dc &&& 16 = 0 then "in" else "") ++ "valid\n" ++
  "        - Data unit in quartets: " ++ toString (dc &&& 15) ++ "\n"

/-- The DF/EF selection bit table shared by `selection_methods` and
`selection_mode` (two identical functions in the source). -/
def selection_bits (sm : ℕ) : String :=
  (if sm &&& 1 ≠ 0 then "        - Record identifier supported\n" else "") ++
  (if sm &&& 2 ≠ 0 then "        - Record number supported\n" else "") ++
  (if sm &&& 4 ≠ 0 then "        - Short EF identifier supported\n" else "") ++
  (if sm &&& 8 ≠ 0 then "        - Implicit DF selection\n" else "") ++
  (if sm &&& 16 ≠ 0 then "        - DF selection by file identifier\n" else "") ++
  (if sm &&& 32 ≠ 0 then "        - DF selection by path\n" else "") ++
  (if sm &&& 64 ≠ 0 then "        - DF selection by partial DF name\n" else "") ++
  (if sm &&& 128 ≠ 0 then "        - DF selection by full DF name\n" else "")

def selection_methods (sm : ℕ) : String := selection_bits sm

def selection_mode (sm : ℕ) : String := selection_bits sm

/-- `command_chaining` (note the Python `1 + cc & 7`, which binds as
`(1 + cc) & 7`). -/
def command_chaining (cc : ℕ) : String :=
  (if cc &&& 128 ≠ 0 then "        - Command chaining\n" else "") ++
  (if cc &&& 64 ≠ 0 then "        - Extended Lc and Le fields\n" else "") ++
  (if cc &&& 32 ≠ 0 then "        - RFU (should not happen)\n" else "") ++
  "        - Logical channel number assignment: " ++
  (["No logical channel\n", "by the interface device\n", "by the card\n",
    "by the interface device and card\n"].getD ((cc / 8) &&& 3) "") ++
  "        - Maximum number of logical channels: " ++
  toString ((1 + cc) &&& 7) ++ "\n"

/-- `card_service`. -/
def card_service (cs : ℕ) : String :=
  (if cs &&& 128 ≠ 0 then "        - Application selection: by full DF name\n" else "") ++
  (if cs &&& 64 ≠ 0 then "        - Application selection: by partial DF name\n" else "") ++
  (if cs &&& 32 ≠ 0 then "        - BER-TLV data objects available in EF.DIR\n" else "") ++
  (if cs &&& 16 ≠ 0 then "        - BER-TLV data objects available in EF.ATR\n" else "") ++
  "        - EF.DIR and EF.ATR access services: " ++
  (let v := (cs / 2) &&& 7
   if v = 4 then "by READ BINARY command\n"
   else if v = 2 then "by GET DATA command\n"
   else if v = 0 then "by GET RECORD(s) command\n"
   else "reverved for future use\n") ++
  (if cs &&& 1 ≠ 0 then "        - Card without MF\n" else "        - Card with MF\n")

/-- `safe_get`: the first `number` bytes, missing ones defaulting to
zero. -/
def safe_get (historical_bytes : List ℕ) (number : ℕ) : List ℕ :=
  (List.range number).map (fun i => historical_bytes.getD i 0)

/-- One step of the compact-TLV walk (`compact_tlv`).  The head byte is
split into tag (high nibble) and length (low nibble); the result is
the accumulated template text, the substitution values, the remaining
historical bytes (`del historical_bytes[0:len]`) and the warning that
the step may have stored into the record.  The only uncaught
`IndexError` of the source is the tag-8 length-1 read of a missing
byte; the tag-3 and tag-7 single reads are wrapped in `try/except`,
and the multi-byte reads of tags 7 and 8 go through `safe_get`. -/
def tlvHead (tag len : ℕ) : String :=
  "    Tag: " ++ toString tag ++ ", Len: " ++ toString len ++ " (%s)\n"

def compact_tlv (hb : List ℕ) : Except String (String × List Arg × List ℕ × Option String) :=
  match hb with
  | [] => .error "IndexError"
  | tlv :: rest =>
    let tag := tlv / 16
    let len := tlv % 16
    let head := tlvHead tag len
    let rest' := rest.drop len
    if tag = 1 then
      .ok (head ++ "      Country code: %s\n",
           [.s "country code, ISO 3166-1", .s (toHexString (rest.take len))], rest', none)
    else if tag = 2 then
      .ok (head ++ "      Issuer identification number: %s\n",
           [.s "issuer identification number, ISO 7812-1",
            .s (toHexString (rest.take len))], rest', none)
    else if tag = 3 then
      match rest.get? 0 with
      | none =>
        let w := "Error in the ATR: expecting 1 byte and got 0\n"
        .ok (head ++ w, [.s "card service data byte"], rest', some w)
      | some cs =>
        .ok (head ++ "      Card service data byte: %d\n%s",
             [.s "card service data byte", .i cs, .s (card_service cs)], rest', none)
    else if tag = 4 then
      .ok (head ++ "      Initial access data: %s \"%s\"\n",
           [.s "initial access data", .s (toHexString (rest.take len)),
            .s (toASCIIString (rest.take len))], rest', none)
    else if tag = 5 then
      .ok (head ++ "      Card issuer data: %s \"%s\"\n",
           [.s "card issuer's data", .s (toHexString (rest.take len)),
            .s (toASCIIString (rest.take len))], rest', none)
    else if tag = 6 then
      .ok (head ++ "      Data: %s \"%s\"\n",
           [.s "pre-issuing data", .s (toHexString (rest.take len)),
            .s (toASCIIString (rest.take len))], rest', none)
    else if tag = 7 then
      if len = 1 then
        match rest.get? 0 with
        | none =>
          let w := "Error in the ATR: expecting 1 byte and got 0\n"
          .ok (head ++ w, [.s "card capabilities"], rest', some w)
        | some sm =>
          .ok (head ++ "      Selection methods: %d\n%s",
               [.s "card capabilities", .i sm, .s (selection_mode sm)], rest', none)
      else if len = 2 then
        match safe_get rest 2 with
        | [sm, dc] =>
          .ok (head ++ "      Selection methods: %d\n%s" ++
               "      Data coding byte: %d\n%s",
               [.s "card capabilities", .i sm, .s (selection_methods sm),
                .i dc, .s (data_coding dc)], rest', none)
        | _ => .error "unreachable"
      else if len = 3 then
        match safe_get rest 3 with
        | [sm, dc, cc] =>
          .ok (head ++ "      Selection methods: %d\n%s" ++
               "      Data coding byte: %d\n%s" ++
               "      Command chaining, length fields and logical channels: %d\n%s",
               [.s "card capabilities", .i sm, .s (selection_mode sm),
                .i dc, .s (data_coding dc), .i cc, .s (command_chaining cc)],
               rest', none)
        | _ => .error "unreachable"
      else
        .ok (head ++ "      wrong ATR", [.s "card capabilities"], rest', none)
    else if tag = 8 then
      if len = 1 then
        match rest.get? 0 with
        | none => .error "IndexError"
        | some lcs =>
          .ok (head ++ "      LCS (life card cycle): %d\n",
               [.s "status indicator", .i lcs], rest', none)
      else if len = 2 then
        match safe_get rest 2 with
        | [sw1, sw2] =>
          .ok (head ++ "      SW: %s",
               [.s "status indicator", .s (byteHex sw1 ++ " " ++ byteHex sw2)],
               rest', none)
        | _ => .error "unreachable"
      else if len = 3 then
        match safe_get rest 3 with
        | [lcs, sw1, sw2] =>
          .ok (head ++ "      LCS (life card cycle): %d\n" ++ "      SW: %s",
               [.s "status indicator", .i lcs,
                .s (byteHex sw1 ++ " " ++ byteHex sw2)], rest', none)
        | _ => .error "unreachable"
      else
        .ok (head, [.s "status indicator"], rest', none)
    else if tag = 15 then
      .ok (head ++ "      Application identifier: %s \"%s\"\n",
           [.s "application identifier", .s (toHexString (rest.take len)),
            .s (toASCIIString (rest.take len))], rest', none)
    else
      .ok (head ++ "      Value: %s \"%s\"\n",
           [.s "unknown", .s (toHexString (rest.take len)),
            .s (toASCIIString (rest.take len))], rest', none)

/-- The `while len(hb) > 0` walk over the compact-TLV region: text and
args accumulate, each step's record warning overwrites the previous
one.  Each step consumes at least the tag byte, so `fuel ≥ hb.length`
makes the fuel branch unreachable. -/
def tlvLoop : ℕ → List ℕ → Except String (String × List Arg × Option String)
  | 0, [] => .ok ("", [], none)
  | 0, _ :: _ => .error "OUT OF FUEL"
  | _ + 1, [] => .ok ("", [], none)
  | fuel + 1, b :: rest =>
    match compact_tlv (b :: rest) with
    | .error e => .error e
    | .ok (txt, args, remaining, w?) =>
      match tlvLoop fuel remaining with
      | .error e => .error e
      | .ok (txt2, args2, w2?) =>
        .ok (txt ++ txt2, args ++ args2,
             match w2? with | some w2 => some w2 | none => w?)

/-- `analyse_historical_bytes`: dispatch on the category indicator
byte; operates on a private copy of the historical bytes, so it
returns only the description and the warning it may store into the
record. -/
def analyse_historical_bytes (historical_bytes : List ℕ) :
    Except String (HbDesc × Option String) :=
  match historical_bytes with
  | [] => .ok (.null, none)
  | hb_category :: hb =>
    let left := "  Category indicator byte: 0x" ++ byteHex hb_category
    if hb_category = 0x00 then
      if hb.length < 3 then
        let w := "Error in the ATR: expecting 3 bytes and got " ++ toString hb.length
        .ok (.single (" (compact TLV data object)\n" ++ w), some w)
      else
        let status := hb.drop (hb.length - 3)
        let body := hb.take (hb.length - 3)
        match tlvLoop body.length body with
        | .error e => .error e
        | .ok (txt, args, w?) =>
          let lcs := status.getD 0 0
          let sw1 := status.getD 1 0
          let sw2 := status.getD 2 0
          .ok (.full left
                (" (compact TLV data object)\n" ++ txt ++
                 "    Mandatory status indicator (3 last bytes)\n" ++
                 "      LCS (life card cycle): %d (%s)\n" ++ "      SW: %s")
                (args ++ [.i lcs, .s (life_cycle_status lcs),
                          .s (byteHex sw1 ++ " " ++ byteHex sw2)]), w?)
    else if hb_category = 0x80 then
      match tlvLoop hb.length hb with
      | .error e => .error e
      | .ok (txt, args, w?) =>
        .ok (.full left (" (compact TLV data object)\n" ++ txt) args, w?)
    else if hb_category = 0x10 then
      match hb with
      | [] => .error "IndexError"
      | data_ref :: _ =>
        .ok (.full left
              (" (next byte is the DIR data reference)\n   DIR data reference: %d")
              [.i data_ref], none)
    else if 0x81 ≤ hb_category ∧ hb_category ≤ 0x8F then
      .ok (.full left " (Reserved for future use)" [], none)
    else
      .ok (.full left " (proprietary format) \"%s\"" [.s (toASCIIString hb)], none)

/-! ## Checksum validator and documentation pass -/

/-- `compute_tck`: start from the TS byte, XOR-fold the whole sequence
(which cancels TS out — the comment in the source says "do not include
TS byte"), then XOR the trailing TCK byte away.  The result is the XOR
of all bytes except TS and except the last byte. -/
def compute_tck (atr : List ℕ) : ℕ :=
  ((atr.foldl (fun s e => s ^^^ e) (atr.headD 0)) ^^^ atr.getLastD 0)

/-- Association-list lookup keyed by protocol number. -/
def alookup {α : Type} : List (ℕ × α) → ℕ → Option α
  | [], _ => none
  | (k, f) :: rest, i => if k = i then some f else alookup rest i

/-- Store a description at key `i` (`atr[key][i]["description"] = ...`). -/
def updDesc (l : List (ℕ × Field)) (i : ℕ) (d : Desc) : List (ℕ × Field) :=
  l.map (fun kv => if kv.1 = i then (kv.1, { kv.2 with description := some d }) else kv)

/-- The `eval("TA%d(v)")` dispatch for the TA column (indices 3–5 share
`TAn`). -/
def TAdisp (i v : ℕ) (t : Int) : Desc :=
  if i = 1 then TA1 v else if i = 2 then .str (TA2 v) else TAn i v t

def TBdisp (i v : ℕ) (t : Int) : Desc :=
  if i = 1 then .str (TB1 v) else if i = 2 then .str (TB2 v) else TBn i v t

def TCdisp (i v : ℕ) (t : Int) : Desc :=
  if i = 1 then TC1 v else if i = 2 then .str (TC2 v) else TCn i v t

/-- Describe `TA[i]` when it is present. -/
def docA (r : ATRRec) (t : Int) (i : ℕ) : ATRRec :=
  match alookup r.TA i with
  | some f => { r with TA := updDesc r.TA i (TAdisp i f.value t) }
  | none => r

/-- Describe `TB[i]` when it is present. -/
def docB (r : ATRRec) (t : Int) (i : ℕ) : ATRRec :=
  match alookup r.TB i with
  | some f => { r with TB := updDesc r.TB i (TBdisp i f.value t) }
  | none => r

/-- Describe `TC[i]` when it is present. -/
def docC (r : ATRRec) (t : Int) (i : ℕ) : ATRRec :=
  match alookup r.TC i with
  | some f => { r with TC := updDesc r.TC i (TCdisp i f.value t) }
  | none => r

/-- Describe `TD[i]` when it is present; it replaces the protocol
context with `TDi & 0xF`. -/
def docD (r : ATRRec) (t : Int) (i : ℕ) : ATRRec × Int :=
  match alookup r.TD i with
  | some f => ({ r with TD := updDesc r.TD i (TDn i f.value).1 }, (TDn i f.value).2)
  | none => (r, t)

/-- One index of the `for i in (1..5): for p in ("A","B","C","D")`
documentation loop: describe `TA[i]`, `TB[i]`, `TC[i]`, `TD[i]` in
that order; `TD[i]` replaces the protocol context. -/
def docStep (rt : ATRRec × Int) (i : ℕ) : ATRRec × Int :=
  docD (docC (docB (docA rt.1 rt.2 i) rt.2 i) rt.2 i) rt.2 i

/-- The interface-byte documentation loop over indices 1–5. -/
def docFold (r : ATRRec) (t : Int) : ATRRec × Int :=
  [1, 2, 3, 4, 5].foldl docStep (r, t)

/-- The `TS` convention map. -/
def TSdescOf (v : ℕ) : String :=
  if v = 0x3B then "Direct Convention"
  else if v = 0x3F then "Inverse Convention"
  else "Invalid"

/-- The TS and T0 descriptions set at the top of `documentATR`. -/
def preDoc (r : ATRRec) : ATRRec :=
  { r with
    TS := ⟨r.TS.value, some (.str (TSdescOf r.TS.value))⟩,
    T0 := ⟨r.T0.value, some (.msg "Y(1): b%s, K: %d (historical bytes)"
      [.s (int2bin (r.T0.value / 16) 4), .i (r.T0.value % 16)])⟩ }

/-- Store the historical-byte description and the warning that the
analysis may have written into the record (overwriting any previous
warning). -/
def postHb (r : ATRRec) (d : HbDesc) (w? : Option String) : ATRRec :=
  { r with hbDesc := some d,
           warning := match w? with | some w => some w | none => r.warning }

/-- The `if "TCK" in atr` block of `documentATR`: compare the
transmitted checksum with `compute_tck`. -/
def postTck (r : ATRRec) : ATRRec :=
  match r.tck with
  | some f =>
    let tckv := compute_tck r.atr
    let txt := if (tckv : Int) = f.value then "correct checksum"
               else "WRONG CHECKSUM, expected 0x" ++ byteHex tckv
    { r with tck := some ⟨f.value, some (.str txt)⟩ }
  | none => r

/-- The `if "extra" in atr` block of `documentATR` (overwrites the
warning). -/
def postExtra (r : ATRRec) : ATRRec :=
  match r.extra with
  | some ex => { r with warning := some ("Extra bytes: " ++ toHexString ex) }
  | none => r

/-- `documentATR`: annotate every structural field with its semantic
description.  `t` is the value of the Python module-level protocol
variable `T` when the call starts (`-1` at module load); the final
value is returned alongside the record, which is how the global leaks
across calls in the source. -/
def documentATR (t : Int) (atr : ATRRec) : Except String (ATRRec × Int) :=
  let rt := docFold (preDoc atr) t
  match analyse_historical_bytes rt.1.hbVal with
  | .error e => .error e
  | .ok (d, w?) => .ok (postExtra (postTck (postHb rt.1 d w?)), rt.2)

/-- `parseATR`: normalize, decompose, document.  The extra `Int`
argument and result model the Python module global `T`. -/
def parseATR (t : Int) (atr_txt : String) : Except String (ATRRec × Int) :=
  match decomposeATR atr_txt with
  | .error e => .error e
  | .ok r => documentATR t r

/-- `true` iff the computation did not raise. -/
def isOkE {ε α : Type} : Except ε α → Bool
  | .ok _ => true
  | .error _ => false

/-- XOR-fold over a byte list (used to state the checksum claims). -/
def xorAll (bs : List ℕ) : ℕ := bs.foldl (fun a b => a ^^^ b) 0

end ParseATR

namespace ParseATR

/-! ## Theorems -/

/-- C7: decomposing `"3B A7 00 40 18 80 65 A2 08 01 01 52"` yields
`hbn = 7`, `TB[1] = 0`, `TC[2] = 24`, `TD[1] = 64`, `pn = 2`, the
7-byte historical block `[128, 101, 162, 8, 1, 1, 82]` and no TCK
field (the only negotiated protocol is T=0). -/
theorem c7_decompose_reference_atr :
    decomposeATR "3B A7 00 40 18 80 65 A2 08 01 01 52" =
      .ok { atr := [59, 167, 0, 64, 24, 128, 101, 162, 8, 1, 1, 82],
            TS := ⟨59, none⟩, T0 := ⟨167, none⟩,
            TA := [], TB := [(1, ⟨0, none⟩)], TC := [(2, ⟨24, none⟩)],
            TD := [(1, ⟨64, none⟩)],
            pn := 2, hbn := 7, hbVal := [128, 101, 162, 8, 1, 1, 82],
            hbDesc := none, tck := none, extra := none, warning := none } := by
  rfl

/-- C10: interpreting a byte with low nibble 15 as TD1 appends
`" (INVALID VALUE for TD1)"` to the description template; any other
index or any other low nibble leaves the plain template. -/
theorem c10_td1_invalid_marker (i v : ℕ) :
    (TDn i v).1 =
      Desc.msg (if i = 1 ∧ v % 16 = 15
                then "Y(i+1) = b%s, Protocol T=%d (INVALID VALUE for TD1)"
                else "Y(i+1) = b%s, Protocol T=%d")
        [.s (int2bin (v / 16) 4), .i ((v % 16 : ℕ) : Int)] := by
  by_cases h : i = 1 ∧ v % 16 = 15 <;> simp [TDn, h]

/-- C8: TA1 value `0x11` decodes to Fi=372, Di=1, 372 cycles/ETU and
FMax=5 MHz; every TA1 value whose Fi or Di lookup hits the RFU
sentinel is described as `INVALID VALUE` with no computed rate (the
args stay the two table entries). -/
theorem c8_ta1_tables :
    TA1_v 0x11 = .valid 372 1 372 5 ∧
    ∀ v : ℕ, (Fi_tab.getD (v / 16) none = none ∨ Di_tab.getD (v % 16) none = none) →
      TA1 v = Desc.msg "Fi=%s, Di=%s, INVALID VALUE"
        [entryArg (Fi_tab.getD (v / 16) none), entryArg (Di_tab.getD (v % 16) none)] := by
  constructor
  · unfold TA1_v
    norm_num [Fi_tab, Di_tab, FMax_tab]
  · intro v h
    unfold TA1 TA1_v
    rcases hF : Fi_tab.getD (v / 16) none with _ | fi <;>
      rcases hD : Di_tab.getD (v % 16) none with _ | di <;>
      simp_all

/-- C8 witness: TA1 value `0x10` has the RFU Di entry and is reported
invalid. -/
theorem c8_ta1_tables_witness :
    TA1 0x10 = Desc.msg "Fi=%s, Di=%s, INVALID VALUE" [.i 372, .s "RFU"] :=
  c8_ta1_tables.2 0x10 (Or.inr (by decide))

/-- C3 (code bug in the source): the input `"3B 10"` passes the
normalizer, declares a TA1 interface byte that is not present, and the
decomposer raises `IndexError` to the caller instead of degrading into
an annotated record. -/
theorem c3_truncated_chain_raises :
    normalize "3B 10" = .ok [59, 16] ∧
    parseATR (-1) "3B 10" = .error "IndexError" := by
  exact ⟨rfl, rfl⟩

/-- C1 counterexample: `compute_tck` does not equal the XOR of every
byte including TS and excluding the trailing TCK byte (the source
explicitly cancels TS out of the fold). -/
theorem c1_tck_includes_ts_counterexample :
    compute_tck [59, 128, 1, 129] ≠ xorAll ([59, 128, 1, 129].dropLast) := by
  decide

/-- C5 counterexample: on `"3B 02 80 81"` the structural decomposition
succeeds, but the compact-TLV walk meets tag 8 with length 1 and no
remaining value byte and raises `IndexError`, failing the whole
decode — the walk is not exception-free. -/
theorem c5_tlv_walk_raises_counterexample :
    isOkE (decomposeFromBytes [59, 2, 128, 129]) = true ∧
    parseATR (-1) "3B 02 80 81" = .error "IndexError" := by
  exact ⟨rfl, rfl⟩

/-! ### Frame lemmas: the documentation loop only writes descriptions -/

theorem docA_frame (r : ATRRec) (t : Int) (i : ℕ) :
    (docA r t i).atr = r.atr ∧ (docA r t i).TS = r.TS ∧ (docA r t i).T0 = r.T0 ∧
    (docA r t i).TB = r.TB ∧ (docA r t i).TC = r.TC ∧ (docA r t i).TD = r.TD ∧
    (docA r t i).pn = r.pn ∧ (docA r t i).hbn = r.hbn ∧
    (docA r t i).hbVal = r.hbVal ∧ (docA r t i).hbDesc = r.hbDesc ∧
    (docA r t i).tck = r.tck ∧ (docA r t i).extra = r.extra ∧
    (docA r t i).warning = r.warning := by
  unfold docA; cases alookup r.TA i <;> simp

theorem docB_frame (r : ATRRec) (t : Int) (i : ℕ) :
    (docB r t i).atr = r.atr ∧ (docB r t i).TS = r.TS ∧ (docB r t i).T0 = r.T0 ∧
    (docB r t i).TA = r.TA ∧ (docB r t i).TC = r.TC ∧ (docB r t i).TD = r.TD ∧
    (docB r t i).pn = r.pn ∧ (docB r t i).hbn = r.hbn ∧
    (docB r t i).hbVal = r.hbVal ∧ (docB r t i).hbDesc = r.hbDesc ∧
    (docB r t i).tck = r.tck ∧ (docB r t i).extra = r.extra ∧
    (docB r t i).warning = r.warning := by
  unfold docB; cases alookup r.TB i <;> simp

theorem docC_frame (r : ATRRec) (t : Int) (i : ℕ) :
    (docC r t i).atr = r.atr ∧ (docC r t i).TS = r.TS ∧ (docC r t i).T0 = r.T0 ∧
    (docC r t i).TA = r.TA ∧ (docC r t i).TB = r.TB ∧ (docC r t i).TD = r.TD ∧
    (docC r t i).pn = r.pn ∧ (docC r t i).hbn = r.hbn ∧
    (docC r t i).hbVal = r.hbVal ∧ (docC r t i).hbDesc = r.hbDesc ∧
    (docC r t i).tck = r.tck ∧ (docC r t i).extra = r.extra ∧
    (docC r t i).warning = r.warning := by
  unfold docC; cases alookup r.TC i <;> simp

theorem docD_frame (r : ATRRec) (t : Int) (i : ℕ) :
    (docD r t i).1.atr = r.atr ∧ (docD r t i).1.TS = r.TS ∧ (docD r t i).1.T0 = r.T0 ∧
    (docD r t i).1.TA = r.TA ∧ (docD r t i).1.TB = r.TB ∧ (docD r t i).1.TC = r.TC ∧
    (docD r t i).1.pn = r.pn ∧ (docD r t i).1.hbn = r.hbn ∧
    (docD r t i).1.hbVal = r.hbVal ∧ (docD r t i).1.hbDesc = r.hbDesc ∧
    (docD r t i).1.tck = r.tck ∧ (docD r t i).1.extra = r.extra ∧
    (docD r t i).1.warning = r.warning := by
  unfold docD; cases alookup r.TD i <;> simp

theorem docStep_hbVal (rt : ATRRec × Int) (i : ℕ) : (docStep rt i).1.hbVal = rt.1.hbVal := by
  unfold docStep
  rw [(docD_frame _ _ _).2.2.2.2.2.2.2.2.1, (docC_frame _ _ _).2.2.2.2.2.2.2.2.1,
      (docB_frame _ _ _).2.2.2.2.2.2.2.2.1, (docA_frame _ _ _).2.2.2.2.2.2.2.2.1]

theorem docStep_atr (rt : ATRRec × Int) (i : ℕ) : (docStep rt i).1.atr = rt.1.atr := by
  unfold docStep
  rw [(docD_frame _ _ _).1, (docC_frame _ _ _).1, (docB_frame _ _ _).1, (docA_frame _ _ _).1]

theorem docStep_tck (rt : ATRRec × Int) (i : ℕ) : (docStep rt i).1.tck = rt.1.tck := by
  unfold docStep
  rw [(docD_frame _ _ _).2.2.2.2.2.2.2.2.2.2.1, (docC_frame _ _ _).2.2.2.2.2.2.2.2.2.2.1,
      (docB_frame _ _ _).2.2.2.2.2.2.2.2.2.2.1, (docA_frame _ _ _).2.2.2.2.2.2.2.2.2.2.1]

theorem docStep_extra (rt : ATRRec × Int) (i : ℕ) : (docStep rt i).1.extra = rt.1.extra := by
  unfold docStep
  rw [(docD_frame _ _ _).2.2.2.2.2.2.2.2.2.2.2.1, (docC_frame _ _ _).2.2.2.2.2.2.2.2.2.2.2.1,
      (docB_frame _ _ _).2.2.2.2.2.2.2.2.2.2.2.1, (docA_frame _ _ _).2.2.2.2.2.2.2.2.2.2.2.1]

theorem docStep_warning (rt : ATRRec × Int) (i : ℕ) : (docStep rt i).1.warning = rt.1.warning := by
  unfold docStep
  rw [(docD_frame _ _ _).2.2.2.2.2.2.2.2.2.2.2.2, (docC_frame _ _ _).2.2.2.2.2.2.2.2.2.2.2.2,
      (docB_frame _ _ _).2.2.2.2.2.2.2.2.2.2.2.2, (docA_frame _ _ _).2.2.2.2.2.2.2.2.2.2.2.2]

theorem docFold_hbVal (r : ATRRec) (t : Int) : (docFold r t).1.hbVal = r.hbVal := by
  simp [docFold, List.foldl, docStep_hbVal]

theorem docFold_atr (r : ATRRec) (t : Int) : (docFold r t).1.atr = r.atr := by
  simp [docFold, List.foldl, docStep_atr]

theorem docFold_tck (r : ATRRec) (t : Int) : (docFold r t).1.tck = r.tck := by
  simp [docFold, List.foldl, docStep_tck]

theorem docFold_extra (r : ATRRec) (t : Int) : (docFold r t).1.extra = r.extra := by
  simp [docFold, List.foldl, docStep_extra]

theorem docFold_warning (r : ATRRec) (t : Int) : (docFold r t).1.warning = r.warning := by
  simp [docFold, List.foldl, docStep_warning]

/-- C6: whenever the decomposition completes and the declared
historical-byte count exceeds the bytes present, the record carries
the exact-shortfall warning and the historical block is what remained
of the input (a suffix of it). -/
theorem c6_truncated_hb_warning (bs : List ℕ) (r : ATRRec)
    (h : decomposeFromBytes bs = .ok r) (hshort : r.hbVal.length < r.hbn) :
    r.warning = some (truncMsg (r.hbn - r.hbVal.length)) ∧ r.hbVal.IsSuffix bs := by
  unfold decomposeFromBytes at h
  cases h0 : bs.get? 0 with
  | none => rw [h0] at h; simp at h
  | some ts =>
    cases h1 : bs.get? 1 with
    | none => rw [h0, h1] at h; simp at h
    | some t0 =>
      rw [h0, h1] at h
      dsimp only at h
      cases hc : chainLoop bs bs.length t0 [] [] [] [] 1 1 false with
      | error e => rw [hc] at h; simp at h
      | ok st =>
        rw [hc] at h
        simp only [Except.ok.injEq] at h
        subst h
        simp only at hshort ⊢
        constructor
        · simp only [hshort, if_pos]
        · have : (bs.drop (st.pointer + 1)).take (t0 % 16) = bs.drop (st.pointer + 1) := by
            apply List.take_of_length_le
            by_contra hlen
            push_neg at hlen
            rw [List.length_take, min_eq_left (le_of_lt hlen)] at hshort
            exact lt_irrefl _ hshort
          rw [this]
          exact List.drop_suffix _ _

/-- The record produced by decomposing `"3B 02 01"`. -/
def truncExampleRec : ATRRec :=
  { atr := [59, 2, 1], TS := ⟨59, none⟩, T0 := ⟨2, none⟩,
    TA := [], TB := [], TC := [], TD := [], pn := 1, hbn := 2,
    hbVal := [1], hbDesc := none, tck := none, extra := none,
    warning := some "ATR is truncated: 1 byte is missing" }

/-- C6 witness: `"3B 02 01"` declares 2 historical bytes but carries
only 1. -/
theorem c6_truncated_hb_warning_witness :
    truncExampleRec.warning =
      some (truncMsg (truncExampleRec.hbn - truncExampleRec.hbVal.length)) ∧
    truncExampleRec.hbVal.IsSuffix [59, 2, 1] :=
  c6_truncated_hb_warning [59, 2, 1] truncExampleRec rfl (by decide)

/-- C9: documenting a record never rewrites the historical-byte block
or the byte sequence itself — `analyse_historical_bytes` consumes a
private copy, so after the call `hb` (and the full `atr` list) are
byte-for-byte what they were before. -/
theorem postHb_frame (r : ATRRec) (d : HbDesc) (w? : Option String) :
    (postHb r d w?).hbVal = r.hbVal ∧ (postHb r d w?).atr = r.atr ∧
    (postHb r d w?).tck = r.tck ∧ (postHb r d w?).extra = r.extra := by
  unfold postHb; simp

theorem postTck_frame (r : ATRRec) :
    (postTck r).hbVal = r.hbVal ∧ (postTck r).atr = r.atr ∧
    (postTck r).extra = r.extra ∧ (postTck r).warning = r.warning := by
  unfold postTck; cases r.tck <;> simp

theorem postExtra_frame (r : ATRRec) :
    (postExtra r).hbVal = r.hbVal ∧ (postExtra r).atr = r.atr ∧
    (postExtra r).tck = r.tck := by
  unfold postExtra; cases r.extra <;> simp

theorem preDoc_frame (r : ATRRec) :
    (preDoc r).hbVal = r.hbVal ∧ (preDoc r).atr = r.atr ∧
    (preDoc r).TA = r.TA ∧ (preDoc r).TB = r.TB ∧ (preDoc r).TC = r.TC ∧
    (preDoc r).TD = r.TD ∧ (preDoc r).tck = r.tck ∧ (preDoc r).extra = r.extra ∧
    (preDoc r).warning = r.warning := by
  unfold preDoc; simp

theorem c9_hb_unchanged (t : Int) (r : ATRRec) (out : ATRRec × Int)
    (h : documentATR t r = .ok out) :
    out.1.hbVal = r.hbVal ∧ out.1.atr = r.atr := by
  unfold documentATR at h
  dsimp only at h
  cases hA : analyse_historical_bytes ((docFold (preDoc r) t).1.hbVal) with
  | error e => rw [hA] at h; simp at h
  | ok dw =>
    rw [hA] at h
    obtain ⟨d, w?⟩ := dw
    simp only [Except.ok.injEq] at h
    subst h
    constructor
    · rw [(postExtra_frame _).1, (postTck_frame _).1, (postHb_frame _ _ _).1,
          docFold_hbVal, (preDoc_frame _).1]
    · rw [(postExtra_frame _).2.1, (postTck_frame _).2.1, (postHb_frame _ _ _).2.1,
          docFold_atr, (preDoc_frame _).2.1]

/-- The record produced by decomposing `"3B 01 80"`. -/
def hbExampleRec : ATRRec :=
  { atr := [59, 1, 128], TS := ⟨59, none⟩, T0 := ⟨1, none⟩,
    TA := [], TB := [], TC := [], TD := [], pn := 1, hbn := 1,
    hbVal := [128], hbDesc := none, tck := none, extra := none, warning := none }

/-- The record documented from `hbExampleRec`. -/
def hbExampleOut : ATRRec × Int :=
  ({ atr := [59, 1, 128], TS := ⟨59, some (.str "Direct Convention")⟩,
     T0 := ⟨1, some (.msg "Y(1): b%s, K: %d (historical bytes)" [.s "0000", .i 1])⟩,
     TA := [], TB := [], TC := [], TD := [], pn := 1, hbn := 1,
     hbVal := [128],
     hbDesc := some (.full "  Category indicator byte: 0x80"
       " (compact TLV data object)\n" []),
     tck := none, extra := none, warning := none }, -1)

set_option maxHeartbeats 2000000 in
/-- C9 witness: documenting the one-historical-byte record leaves its
`hb` value and `atr` list intact. -/
theorem c9_hb_unchanged_witness :
    hbExampleOut.1.hbVal = hbExampleRec.hbVal ∧ hbExampleOut.1.atr = hbExampleRec.atr :=
  c9_hb_unchanged (-1) hbExampleRec hbExampleOut (by decide)

/-! ### C1: the checksum validator -/

theorem xorAll_concat (l : List ℕ) (x : ℕ) : xorAll (l ++ [x]) = xorAll l ^^^ x := by
  simp [xorAll, List.foldl_append]

/-- C1 (amended): the expected TCK is the XOR of every byte excluding
TS and excluding the trailing TCK byte; equivalently the trailing byte
is the correct checksum iff the XOR of all bytes except TS is zero;
and a record whose transmitted TCK differs from the expected value is
described as `WRONG CHECKSUM, expected 0x..` carrying that expected
value. -/
theorem c1_checksum_amended :
    (∀ bs : List ℕ, 2 ≤ bs.length →
       compute_tck bs = xorAll ((bs.drop 1).dropLast) ∧
       (compute_tck bs = bs.getLastD 0 ↔ xorAll (bs.drop 1) = 0)) ∧
    (∀ (t : Int) (r : ATRRec) (out : ATRRec × Int),
       documentATR t r = .ok out → ∀ f : TCKField, r.tck = some f →
       f.value ≠ ((compute_tck r.atr : ℕ) : Int) →
       out.1.tck = some { f with description := some (.str
         ("WRONG CHECKSUM, expected 0x" ++ byteHex (compute_tck r.atr))) }) := by
  constructor
  · intro bs hlen
    match bs with
    | b :: c :: rest =>
      obtain ⟨m, x, hmx⟩ : ∃ m x, c :: rest = m ++ [x] :=
        ⟨(c :: rest).dropLast, (c :: rest).getLast (by simp),
         (List.dropLast_append_getLast (by simp)).symm⟩
      rw [hmx]
      have hlast : (b :: (m ++ [x])).getLastD 0 = x := by
        rw [← List.cons_append, List.getLastD_eq_getLast?, List.getLast?_concat]
        rfl
      have efold : compute_tck (b :: (m ++ [x])) = xorAll m := by
        unfold compute_tck
        have hfold : List.foldl (fun s e => s ^^^ e)
            ((b :: (m ++ [x])).headD 0) (b :: (m ++ [x])) = xorAll m ^^^ x := by
          simp [xorAll, List.foldl_append, Nat.xor_self]
        rw [hfold, hlast, Nat.xor_assoc, Nat.xor_self, Nat.xor_zero]
      constructor
      · rw [efold]
        simp [List.dropLast_concat]
      · rw [efold, hlast]
        have hdrop : (b :: (m ++ [x])).drop 1 = m ++ [x] := by simp
        rw [hdrop, xorAll_concat, Nat.xor_eq_zero]
  · intro t r out h f hf hne
    unfold documentATR at h
    dsimp only at h
    cases hA : analyse_historical_bytes ((docFold (preDoc r) t).1.hbVal) with
    | error e => rw [hA] at h; simp at h
    | ok dw =>
      rw [hA] at h
      obtain ⟨d, w?⟩ := dw
      simp only [Except.ok.injEq] at h
      subst h
      have htck : (postHb (docFold (preDoc r) t).1 d w?).tck = some f := by
        rw [(postHb_frame _ _ _).2.2.1, docFold_tck, (preDoc_frame _).2.2.2.2.2.2.1, hf]
      have hatr : (postHb (docFold (preDoc r) t).1 d w?).atr = r.atr := by
        rw [(postHb_frame _ _ _).2.1, docFold_atr, (preDoc_frame _).2.1]
      rw [(postExtra_frame _).2.2]
      unfold postTck
      rw [htck, hatr]
      dsimp only
      rw [if_neg (fun hh => hne hh.symm)]

/-- The record produced by decomposing `"3B 80 01 00"`. -/
def tckExampleRec : ATRRec :=
  { atr := [59, 128, 1, 0], TS := ⟨59, none⟩, T0 := ⟨128, none⟩,
    TA := [], TB := [], TC := [], TD := [(1, ⟨1, none⟩)], pn := 2, hbn := 0,
    hbVal := [], hbDesc := none, tck := some ⟨0, none⟩, extra := none,
    warning := none }

/-- The record documented from `tckExampleRec`. -/
def tckExampleOut : ATRRec × Int :=
  ({ atr := [59, 128, 1, 0], TS := ⟨59, some (.str "Direct Convention")⟩,
     T0 := ⟨128, some (.msg "Y(1): b%s, K: %d (historical bytes)" [.s "1000", .i 0])⟩,
     TA := [], TB := [], TC := [],
     TD := [(1, ⟨1, some (.msg "Y(i+1) = b%s, Protocol T=%d" [.s "0000", .i 1])⟩)],
     pn := 2, hbn := 0, hbVal := [], hbDesc := some .null,
     tck := some ⟨0, some (.str "WRONG CHECKSUM, expected 0x81")⟩,
     extra := none, warning := none }, 1)

/-! ### C4: decode output does not depend on the protocol-state value
carried over from earlier calls -/

theorem alookup_append_single {α : Type} (l : List (ℕ × α)) (j : ℕ) (v : α) (k : ℕ) :
    ((alookup (l ++ [(j, v)]) k).isSome = true) ↔
      ((alookup l k).isSome = true ∨ k = j) := by
  induction l with
  | nil =>
    simp only [List.nil_append, alookup]
    by_cases h : j = k
    · subst h; simp
    · rw [if_neg h]; simp [alookup, Ne.symm h]
  | cons kv rest ih =>
    obtain ⟨kk, f⟩ := kv
    simp only [List.cons_append, alookup]
    by_cases h : kk = k
    · rw [if_pos h, if_pos h]; simp
    · rw [if_neg h, if_neg h]; exact ih

theorem alookup_appOpt (l : List (ℕ × ℕ)) (j : ℕ) (vo : Option ℕ) (k : ℕ) :
    ((alookup (appOpt l j vo) k).isSome = true) ↔
      ((alookup l k).isSome = true ∨ (vo.isSome = true ∧ k = j)) := by
  cases vo with
  | none => simp [appOpt]
  | some v => simp [appOpt, alookup_append_single]

theorem alookup_updDesc (l : List (ℕ × Field)) (i : ℕ) (d : Desc) (j : ℕ) :
    ((alookup (updDesc l i d) j).isSome = (alookup l j).isSome) ∧
    ((alookup (updDesc l i d) j).map Field.value = (alookup l j).map Field.value) := by
  induction l with
  | nil => simp [updDesc, alookup]
  | cons kv rest ih =>
    obtain ⟨kk, f⟩ := kv
    have hexp : updDesc ((kk, f) :: rest) i d =
        (if kk = i then (kk, { f with description := some d }) else (kk, f)) ::
          updDesc rest i d := by
      simp [updDesc]
    rw [hexp]
    by_cases hki : kk = i
    · rw [if_pos hki]
      by_cases hkj : kk = j
      · simp [alookup, hkj]
      · simp only [alookup, if_neg hkj]
        exact ih
    · rw [if_neg hki]
      by_cases hkj : kk = j
      · simp [alookup, hkj]
      · simp only [alookup, if_neg hkj]
        exact ih

/-- Presence of a key in any of the four interface-byte columns. -/
def anyKey (r : ATRRec) (i : ℕ) : Prop :=
  (alookup r.TA i).isSome = true ∨ (alookup r.TB i).isSome = true ∨
  (alookup r.TC i).isSome = true ∨ (alookup r.TD i).isSome = true

/-- The chain invariant needed for protocol-context freshness: any
interface byte at block `i ≥ 2` is preceded by a recorded `TD[i-1]`. -/
def chainInv (r : ATRRec) : Prop :=
  ∀ i, 2 ≤ i → anyKey r i → (alookup r.TD (i - 1)).isSome = true

theorem chainLoop_keys (bs : List ℕ) :
    ∀ (fuel TDi : ℕ) (TAl TBl TCl TDl : List (ℕ × ℕ)) (pn p : ℕ) (tck : Bool)
      (st : ChainState),
      chainLoop bs fuel TDi TAl TBl TCl TDl pn p tck = .ok st → 1 ≤ pn →
      (∀ k, (alookup TDl k).isSome = true ↔ 1 ≤ k ∧ k < pn) →
      (∀ k, (alookup TAl k).isSome = true → 1 ≤ k ∧ k < pn) →
      (∀ k, (alookup TBl k).isSome = true → 1 ≤ k ∧ k < pn) →
      (∀ k, (alookup TCl k).isSome = true → 1 ≤ k ∧ k < pn) →
      (1 ≤ st.pn ∧
       (∀ k, (alookup st.TD k).isSome = true ↔ 1 ≤ k ∧ k < st.pn) ∧
       (∀ k, (alookup st.TA k).isSome = true → 1 ≤ k ∧ k ≤ st.pn) ∧
       (∀ k, (alookup st.TB k).isSome = true → 1 ≤ k ∧ k ≤ st.pn) ∧
       (∀ k, (alookup st.TC k).isSome = true → 1 ≤ k ∧ k ≤ st.pn)) := by
  intro fuel
  induction fuel with
  | zero =>
    intro TDi TAl TBl TCl TDl pn p tck st h
    simp [chainLoop] at h
  | succ n ih =>
    intro TDi TAl TBl TCl TDl pn p tck st h hpn hTD hTA hTB hTC
    simp only [chainLoop] at h
    by_cases hp : p < bs.length
    · rw [if_pos hp] at h
      cases hA : readIf (decide ((TDi ||| 0xEF) = 0xFF)) bs (p + 1) with
      | error e => rw [hA] at h; simp at h
      | ok vA =>
        rw [hA] at h
        dsimp only at h
        cases hB : readIf (decide ((TDi ||| 0xDF) = 0xFF)) bs
            (p + 1 + if vA.isSome then 1 else 0) with
        | error e => rw [hB] at h; simp at h
        | ok vB =>
          rw [hB] at h
          dsimp only at h
          cases hC : readIf (decide ((TDi ||| 0xBF) = 0xFF)) bs
              (p + 1 + (if vA.isSome then 1 else 0) + if vB.isSome then 1 else 0) with
          | error e => rw [hC] at h; simp at h
          | ok vC =>
            rw [hC] at h
            dsimp only at h
            by_cases hdp : (TDi ||| 0x7F) = 0xFF
            · rw [if_pos hdp] at h
              cases hD : readAt bs (p + 1 + (if vA.isSome then 1 else 0) +
                  (if vB.isSome then 1 else 0) + if vC.isSome then 1 else 0) with
              | error e => rw [hD] at h; simp at h
              | ok vD =>
                rw [hD] at h
                dsimp only at h
                refine ih vD _ _ _ _ _ _ _ _ h (by omega) ?_ ?_ ?_ ?_
                · intro k
                  rw [alookup_append_single]
                  rw [hTD k]
                  omega
                · intro k hk
                  rcases (alookup_appOpt _ _ _ _).mp hk with hin | ⟨-, hkpn⟩
                  · have := hTA k hin; omega
                  · omega
                · intro k hk
                  rcases (alookup_appOpt _ _ _ _).mp hk with hin | ⟨-, hkpn⟩
                  · have := hTB k hin; omega
                  · omega
                · intro k hk
                  rcases (alookup_appOpt _ _ _ _).mp hk with hin | ⟨-, hkpn⟩
                  · have := hTC k hin; omega
                  · omega
            · rw [if_neg hdp] at h
              simp only [Except.ok.injEq] at h
              subst h
              dsimp only
              refine ⟨hpn, hTD, ?_, ?_, ?_⟩
              · intro k hk
                rcases (alookup_appOpt _ _ _ _).mp hk with hin | ⟨-, hkpn⟩
                · have := hTA k hin; omega
                · omega
              · intro k hk
                rcases (alookup_appOpt _ _ _ _).mp hk with hin | ⟨-, hkpn⟩
                · have := hTB k hin; omega
                · omega
              · intro k hk
                rcases (alookup_appOpt _ _ _ _).mp hk with hin | ⟨-, hkpn⟩
                · have := hTC k hin; omega
                · omega
    · rw [if_neg hp] at h
      simp only [Except.ok.injEq] at h
      subst h
      dsimp only
      refine ⟨hpn, hTD, ?_, ?_, ?_⟩
      · intro k hk; have := hTA k hk; omega
      · intro k hk; have := hTB k hk; omega
      · intro k hk; have := hTC k hk; omega

theorem alookup_map_toField (l : List (ℕ × ℕ)) (k : ℕ) :
    (alookup (l.map toField) k).isSome = (alookup l k).isSome := by
  induction l with
  | nil => rfl
  | cons kv rest ih =>
    obtain ⟨kk, v⟩ := kv
    simp only [List.map_cons, toField, alookup]
    by_cases h : kk = k
    · rw [if_pos h, if_pos h]; rfl
    · rw [if_neg h, if_neg h]; exact ih

/-- Every record produced by the decomposer satisfies the chain
invariant. -/
theorem decompose_chainInv (bs : List ℕ) (r : ATRRec)
    (h : decomposeFromBytes bs = .ok r) : chainInv r := by
  unfold decomposeFromBytes at h
  cases h0 : bs.get? 0 with
  | none => rw [h0] at h; simp at h
  | some ts =>
    cases h1 : bs.get? 1 with
    | none => rw [h0, h1] at h; simp at h
    | some t0 =>
      rw [h0, h1] at h
      dsimp only at h
      cases hc : chainLoop bs bs.length t0 [] [] [] [] 1 1 false with
      | error e => rw [hc] at h; simp at h
      | ok st =>
        rw [hc] at h
        simp only [Except.ok.injEq] at h
        subst h
        obtain ⟨hpn, hTD, hTA, hTB, hTC⟩ := chainLoop_keys bs bs.length t0 [] [] [] [] 1 1
          false st hc (by omega)
          (by intro k; simp [alookup]; omega)
          (by intro k hk; simp [alookup] at hk)
          (by intro k hk; simp [alookup] at hk)
          (by intro k hk; simp [alookup] at hk)
        intro i h2 hany
        simp only [anyKey, alookup_map_toField] at hany
        simp only [alookup_map_toField]
        rw [hTD]
        rcases hany with hk | hk | hk | hk
        · have := hTA i hk; omega
        · have := hTB i hk; omega
        · have := hTC i hk; omega
        · have := (hTD i).mp hk; omega

theorem docA_keys (r : ATRRec) (t : Int) (i j : ℕ) :
    (alookup (docA r t i).TA j).isSome = (alookup r.TA j).isSome := by
  unfold docA
  cases alookup r.TA i with
  | none => rfl
  | some f => exact (alookup_updDesc _ _ _ _).1

theorem docB_keys (r : ATRRec) (t : Int) (i j : ℕ) :
    (alookup (docB r t i).TB j).isSome = (alookup r.TB j).isSome := by
  unfold docB
  cases alookup r.TB i with
  | none => rfl
  | some f => exact (alookup_updDesc _ _ _ _).1

theorem docC_keys (r : ATRRec) (t : Int) (i j : ℕ) :
    (alookup (docC r t i).TC j).isSome = (alookup r.TC j).isSome := by
  unfold docC
  cases alookup r.TC i with
  | none => rfl
  | some f => exact (alookup_updDesc _ _ _ _).1

theorem docD_keys (r : ATRRec) (t : Int) (i j : ℕ) :
    ((alookup (docD r t i).1.TD j).isSome = (alookup r.TD j).isSome) ∧
    ((alookup (docD r t i).1.TD j).map Field.value = (alookup r.TD j).map Field.value) := by
  unfold docD
  cases alookup r.TD i with
  | none => exact ⟨rfl, rfl⟩
  | some f => exact alookup_updDesc _ _ _ _

theorem docStep_TA_keys (rt : ATRRec × Int) (i j : ℕ) :
    (alookup (docStep rt i).1.TA j).isSome = (alookup rt.1.TA j).isSome := by
  unfold docStep
  rw [(docD_frame _ _ _).2.2.2.1, (docC_frame _ _ _).2.2.2.1, (docB_frame _ _ _).2.2.2.1]
  exact docA_keys _ _ _ _

theorem docStep_TB_keys (rt : ATRRec × Int) (i j : ℕ) :
    (alookup (docStep rt i).1.TB j).isSome = (alookup rt.1.TB j).isSome := by
  unfold docStep
  rw [(docD_frame _ _ _).2.2.2.2.1, (docC_frame _ _ _).2.2.2.2.1]
  rw [(docB_keys _ _ _ _), (docA_frame _ _ _).2.2.2.1]

theorem docStep_TC_keys (rt : ATRRec × Int) (i j : ℕ) :
    (alookup (docStep rt i).1.TC j).isSome = (alookup rt.1.TC j).isSome := by
  unfold docStep
  rw [(docD_frame _ _ _).2.2.2.2.2.1]
  rw [(docC_keys _ _ _ _), (docB_frame _ _ _).2.2.2.2.1, (docA_frame _ _ _).2.2.2.2.1]

theorem docStep_TD_keys (rt : ATRRec × Int) (i j : ℕ) :
    (alookup (docStep rt i).1.TD j).isSome = (alookup rt.1.TD j).isSome := by
  unfold docStep
  rw [(docD_keys _ _ _ _).1]
  rw [(docC_frame _ _ _).2.2.2.2.2.1, (docB_frame _ _ _).2.2.2.2.2.1,
      (docA_frame _ _ _).2.2.2.2.2.1]

theorem docStep_TD_value (rt : ATRRec × Int) (i j : ℕ) :
    (alookup (docStep rt i).1.TD j).map Field.value =
      (alookup rt.1.TD j).map Field.value := by
  unfold docStep
  rw [(docD_keys _ _ _ _).2]
  rw [(docC_frame _ _ _).2.2.2.2.2.1, (docB_frame _ _ _).2.2.2.2.2.1,
      (docA_frame _ _ _).2.2.2.2.2.1]

theorem docStep_anyKey (rt : ATRRec × Int) (i j : ℕ) :
    anyKey (docStep rt i).1 j ↔ anyKey rt.1 j := by
  unfold anyKey
  rw [docStep_TA_keys, docStep_TB_keys, docStep_TC_keys, docStep_TD_keys]

/-- The protocol context after documenting block `i`: replaced by
`TD[i] & 0xF` when `TD[i]` exists, untouched otherwise. -/
theorem docStep_snd (rt : ATRRec × Int) (i : ℕ) :
    (docStep rt i).2 = (match alookup rt.1.TD i with
      | some f => ((f.value % 16 : ℕ) : Int)
      | none => rt.2) := by
  unfold docStep docD
  have hTD : (docC (docB (docA rt.1 rt.2 i) rt.2 i) rt.2 i).TD = rt.1.TD := by
    rw [(docC_frame _ _ _).2.2.2.2.2.1, (docB_frame _ _ _).2.2.2.2.2.1,
        (docA_frame _ _ _).2.2.2.2.2.1]
  rw [hTD]
  cases alookup rt.1.TD i with
  | none => rfl
  | some f => rfl

theorem docA_low (r : ATRRec) (t1 t2 : Int) (i : ℕ) (hi : i = 1 ∨ i = 2) :
    docA r t1 i = docA r t2 i := by
  unfold docA
  cases alookup r.TA i with
  | none => rfl
  | some f => rcases hi with h | h <;> subst h <;> simp [TAdisp]

theorem docB_low (r : ATRRec) (t1 t2 : Int) (i : ℕ) (hi : i = 1 ∨ i = 2) :
    docB r t1 i = docB r t2 i := by
  unfold docB
  cases alookup r.TB i with
  | none => rfl
  | some f => rcases hi with h | h <;> subst h <;> simp [TBdisp]

theorem docC_low (r : ATRRec) (t1 t2 : Int) (i : ℕ) (hi : i = 1 ∨ i = 2) :
    docC r t1 i = docC r t2 i := by
  unfold docC
  cases alookup r.TC i with
  | none => rfl
  | some f => rcases hi with h | h <;> subst h <;> simp [TCdisp]

theorem docD_fst (r : ATRRec) (t1 t2 : Int) (i : ℕ) :
    (docD r t1 i).1 = (docD r t2 i).1 := by
  unfold docD
  cases alookup r.TD i <;> rfl

/-- The record part of one documentation step at block 1 or 2 does not
read the protocol context (TA1/TA2/TB1/TB2/TC1/TC2 ignore `T`). -/
theorem docStep_fst_low (rt rq : ATRRec × Int) (i : ℕ) (h : rt.1 = rq.1)
    (hi : i = 1 ∨ i = 2) : (docStep rt i).1 = (docStep rq i).1 := by
  unfold docStep
  rw [h, docA_low rq.1 rt.2 rq.2 i hi, docB_low _ rt.2 rq.2 i hi,
      docC_low _ rt.2 rq.2 i hi]
  exact docD_fst _ _ _ _

/-- A documentation step at a block with no recorded interface byte is
the identity. -/
theorem docStep_id (rt : ATRRec × Int) (i : ℕ) (h : ¬ anyKey rt.1 i) :
    docStep rt i = rt := by
  have hTA : alookup rt.1.TA i = none := by
    cases hx : alookup rt.1.TA i with
    | none => rfl
    | some f => exact absurd (Or.inl (by rw [hx]; rfl)) h
  have hTB : alookup rt.1.TB i = none := by
    cases hx : alookup rt.1.TB i with
    | none => rfl
    | some f => exact absurd (Or.inr (Or.inl (by rw [hx]; rfl))) h
  have hTC : alookup rt.1.TC i = none := by
    cases hx : alookup rt.1.TC i with
    | none => rfl
    | some f => exact absurd (Or.inr (Or.inr (Or.inl (by rw [hx]; rfl)))) h
  have hTD : alookup rt.1.TD i = none := by
    cases hx : alookup rt.1.TD i with
    | none => rfl
    | some f => exact absurd (Or.inr (Or.inr (Or.inr (by rw [hx]; rfl)))) h
  unfold docStep docA
  rw [hTA]
  dsimp only
  unfold docB
  rw [hTB]
  dsimp only
  unfold docC
  rw [hTC]
  dsimp only
  unfold docD
  rw [hTD]

/-- The record produced by the five-block documentation loop does not
depend on the incoming protocol-context value. -/
theorem docFold_fst_indep (r : ATRRec) (hInv : chainInv r) (t1 t2 : Int) :
    (docFold r t1).1 = (docFold r t2).1 := by
  simp only [docFold, List.foldl_cons, List.foldl_nil]
  have h1fst : (docStep (r, t1) 1).1 = (docStep (r, t2) 1).1 :=
    docStep_fst_low (r, t1) (r, t2) 1 rfl (Or.inl rfl)
  by_cases hd1 : (alookup r.TD 1).isSome = true
  · have hpair : docStep (r, t1) 1 = docStep (r, t2) 1 := by
      obtain ⟨f, hf⟩ := Option.isSome_iff_exists.mp hd1
      refine Prod.ext h1fst ?_
      rw [docStep_snd, docStep_snd]
      dsimp only
      rw [hf]
    rw [hpair]
  · by_cases hd2 : (alookup r.TD 2).isSome = true
    · have hpair2 : docStep (docStep (r, t1) 1) 2 = docStep (docStep (r, t2) 1) 2 := by
        refine Prod.ext (docStep_fst_low _ _ 2 h1fst (Or.inr rfl)) ?_
        have k1 : (alookup (docStep (r, t1) 1).1.TD 2).isSome = true := by
          rw [docStep_TD_keys]; exact hd2
        have k2 : (alookup (docStep (r, t2) 1).1.TD 2).isSome = true := by
          rw [docStep_TD_keys]; exact hd2
        obtain ⟨f1, hf1⟩ := Option.isSome_iff_exists.mp k1
        obtain ⟨f2, hf2⟩ := Option.isSome_iff_exists.mp k2
        have v1 := docStep_TD_value (r, t1) 1 2
        have v2 := docStep_TD_value (r, t2) 1 2
        rw [hf1] at v1
        rw [hf2] at v2
        have hval : f1.value = f2.value := by
          have := v1.trans v2.symm
          simpa using this
        have e1 : (docStep (docStep (r, t1) 1) 2).2 = ((f1.value % 16 : ℕ) : Int) := by
          rw [docStep_snd, hf1]
        have e2 : (docStep (docStep (r, t2) 1) 2).2 = ((f2.value % 16 : ℕ) : Int) := by
          rw [docStep_snd, hf2]
        rw [e1, e2, hval]
      rw [hpair2]
    · have hn3 : ¬ anyKey r 3 := fun ha => hd2 (hInv 3 (by omega) ha)
      have hnTD3 : ¬ (alookup r.TD 3).isSome = true :=
        fun h3 => hn3 (Or.inr (Or.inr (Or.inr h3)))
      have hn4 : ¬ anyKey r 4 := fun ha => hnTD3 (hInv 4 (by omega) ha)
      have hnTD4 : ¬ (alookup r.TD 4).isSome = true :=
        fun h4 => hn4 (Or.inr (Or.inr (Or.inr h4)))
      have hn5 : ¬ anyKey r 5 := fun ha => hnTD4 (hInv 5 (by omega) ha)
      have key2 : ∀ (t : Int) (j : ℕ),
          anyKey (docStep (docStep (r, t) 1) 2).1 j ↔ anyKey r j := by
        intro t j
        rw [docStep_anyKey, docStep_anyKey]
      have id1 : ∀ j, j = 3 ∨ j = 4 ∨ j = 5 → ∀ t : Int,
          docStep (docStep (docStep (r, t) 1) 2) j = docStep (docStep (r, t) 1) 2 := by
        intro j hj t
        apply docStep_id
        rw [key2]
        rcases hj with h | h | h <;> subst h
        · exact hn3
        · exact hn4
        · exact hn5
      rw [id1 3 (Or.inl rfl) t1, id1 4 (Or.inr (Or.inl rfl)) t1, id1 5 (Or.inr (Or.inr rfl)) t1,
          id1 3 (Or.inl rfl) t2, id1 4 (Or.inr (Or.inl rfl)) t2, id1 5 (Or.inr (Or.inr rfl)) t2]
      exact docStep_fst_low _ _ 2 h1fst (Or.inr rfl)

/-- Documenting a record satisfying the chain invariant is independent
of the incoming protocol-context value (only the returned final
context differs). -/
theorem documentATR_fst_indep (r : ATRRec) (hInv : chainInv r) (t1 t2 : Int) :
    (documentATR t1 r).map Prod.fst = (documentATR t2 r).map Prod.fst := by
  have hInv' : chainInv (preDoc r) := by
    intro i h2 ha
    have hTD := (preDoc_frame r).2.2.2.2.2.1
    rw [hTD]
    apply hInv i h2
    unfold anyKey at ha ⊢
    rw [(preDoc_frame r).2.2.1, (preDoc_frame r).2.2.2.1, (preDoc_frame r).2.2.2.2.1,
        hTD] at ha
    exact ha
  unfold documentATR
  dsimp only
  have hfold : (docFold (preDoc r) t1).1 = (docFold (preDoc r) t2).1 :=
    docFold_fst_indep _ hInv' t1 t2
  rw [hfold]
  cases hA : analyse_historical_bytes ((docFold (preDoc r) t2).1.hbVal) with
  | error e => rfl
  | ok dw => obtain ⟨d, w⟩ := dw; simp only [Except.map]

/-- C4: decoding is deterministic across repeated calls — the decoded
record of `parseATR` does not depend on the protocol-type value left
behind in the module-level `T` by any earlier decode, so decoding the
same string twice (with arbitrary decodes in between) yields identical
records. -/
theorem c4_decode_state_independent (t1 t2 : Int) (s : String) :
    (parseATR t1 s).map Prod.fst = (parseATR t2 s).map Prod.fst := by
  unfold parseATR
  cases hd : decomposeATR s with
  | error e => rfl
  | ok r =>
    apply documentATR_fst_indep
    unfold decomposeATR at hd
    cases hn : normalize s with
    | error e => rw [hn] at hd; simp at hd
    | ok bs => rw [hn] at hd; exact decompose_chainInv bs r hd

/-! ### C5 (amended): failure and zero-fill behavior of the TLV walk -/

/-- `safe_get` for two bytes is head and second element, zero-padded. -/
theorem safe_get_two (l : List ℕ) : safe_get l 2 = [l.getD 0 0, l.getD 1 0] := rfl

/-- `safe_get` for three bytes. -/
theorem safe_get_three (l : List ℕ) :
    safe_get l 3 = [l.getD 0 0, l.getD 1 0, l.getD 2 0] := rfl

/-- C5 (amended): one compact-TLV step fails only when the tag byte is
`0x81` (tag 8, length 1) with no remaining value byte; the multi-byte
reads of tags 7 and 8 default missing value bytes to zero via
`safe_get` (shown for length 3); and a tag-7 entry with length outside
{1, 2, 3} renders `wrong ATR` without failing. -/
theorem c5_tlv_walk_amended (t len : ℕ) (rest : List ℕ) (hlen : len < 16) :
    ((isOkE (compact_tlv (t :: rest)) = false) ↔ t = 129 ∧ rest = []) ∧
    (len ∉ ([1, 2, 3] : List ℕ) →
      compact_tlv ((112 + len) :: rest) =
        .ok (tlvHead 7 len ++ "      wrong ATR", [.s "card capabilities"],
             rest.drop len, none)) ∧
    compact_tlv (115 :: rest) =
      .ok (tlvHead 7 3 ++ "      Selection methods: %d\n%s" ++
           "      Data coding byte: %d\n%s" ++
           "      Command chaining, length fields and logical channels: %d\n%s",
           [.s "card capabilities", .i (rest.getD 0 0), .s (selection_mode (rest.getD 0 0)),
            .i (rest.getD 1 0), .s (data_coding (rest.getD 1 0)),
            .i (rest.getD 2 0), .s (command_chaining (rest.getD 2 0))],
           rest.drop 3, none) ∧
    compact_tlv (131 :: rest) =
      .ok (tlvHead 8 3 ++ "      LCS (life card cycle): %d\n" ++ "      SW: %s",
           [.s "status indicator", .i (rest.getD 0 0),
            .s (byteHex (rest.getD 1 0) ++ " " ++ byteHex (rest.getD 2 0))],
           rest.drop 3, none) := by
  refine ⟨?_, ?_, ?_, ?_⟩
  · unfold compact_tlv
    dsimp only
    by_cases h1 : t / 16 = 1
    · rw [if_pos h1]
      exact iff_of_false (fun hh => Bool.noConfusion hh) (by rintro ⟨hc, -⟩; omega)
    rw [if_neg h1]
    by_cases h2 : t / 16 = 2
    · rw [if_pos h2]
      exact iff_of_false (fun hh => Bool.noConfusion hh) (by rintro ⟨hc, -⟩; omega)
    rw [if_neg h2]
    by_cases h3 : t / 16 = 3
    · rw [if_pos h3]
      cases rest with
      | nil => exact iff_of_false (fun hh => Bool.noConfusion hh) (by rintro ⟨hc, -⟩; omega)
      | cons x xs =>
        exact iff_of_false (fun hh => Bool.noConfusion hh) (by rintro ⟨hc, -⟩; omega)
    rw [if_neg h3]
    by_cases h4 : t / 16 = 4
    · rw [if_pos h4]
      exact iff_of_false (fun hh => Bool.noConfusion hh) (by rintro ⟨hc, -⟩; omega)
    rw [if_neg h4]
    by_cases h5 : t / 16 = 5
    · rw [if_pos h5]
      exact iff_of_false (fun hh => Bool.noConfusion hh) (by rintro ⟨hc, -⟩; omega)
    rw [if_neg h5]
    by_cases h6 : t / 16 = 6
    · rw [if_pos h6]
      exact iff_of_false (fun hh => Bool.noConfusion hh) (by rintro ⟨hc, -⟩; omega)
    rw [if_neg h6]
    by_cases h7 : t / 16 = 7
    · rw [if_pos h7]
      by_cases l1 : t % 16 = 1
      · rw [if_pos l1]
        cases rest with
        | nil =>
          exact iff_of_false (fun hh => Bool.noConfusion hh) (by rintro ⟨hc, -⟩; omega)
        | cons x xs =>
          exact iff_of_false (fun hh => Bool.noConfusion hh) (by rintro ⟨hc, -⟩; omega)
      rw [if_neg l1]
      by_cases l2 : t % 16 = 2
      · rw [if_pos l2]
        exact iff_of_false (fun hh => Bool.noConfusion hh) (by rintro ⟨hc, -⟩; omega)
      rw [if_neg l2]
      by_cases l3 : t % 16 = 3
      · rw [if_pos l3]
        exact iff_of_false (fun hh => Bool.noConfusion hh) (by rintro ⟨hc, -⟩; omega)
      rw [if_neg l3]
      exact iff_of_false (fun hh => Bool.noConfusion hh) (by rintro ⟨hc, -⟩; omega)
    rw [if_neg h7]
    by_cases h8 : t / 16 = 8
    · rw [if_pos h8]
      by_cases l1 : t % 16 = 1
      · rw [if_pos l1]
        cases rest with
        | nil => exact iff_of_true rfl ⟨by omega, rfl⟩
        | cons x xs =>
          exact iff_of_false (fun hh => Bool.noConfusion hh)
            (by rintro ⟨-, hr⟩; exact List.noConfusion hr)
      rw [if_neg l1]
      by_cases l2 : t % 16 = 2
      · rw [if_pos l2]
        exact iff_of_false (fun hh => Bool.noConfusion hh) (by rintro ⟨hc, -⟩; omega)
      rw [if_neg l2]
      by_cases l3 : t % 16 = 3
      · rw [if_pos l3]
        exact iff_of_false (fun hh => Bool.noConfusion hh) (by rintro ⟨hc, -⟩; omega)
      rw [if_neg l3]
      exact iff_of_false (fun hh => Bool.noConfusion hh) (by rintro ⟨hc, -⟩; omega)
    rw [if_neg h8]
    by_cases h15 : t / 16 = 15
    · rw [if_pos h15]
      exact iff_of_false (fun hh => Bool.noConfusion hh) (by rintro ⟨hc, -⟩; omega)
    rw [if_neg h15]
    exact iff_of_false (fun hh => Bool.noConfusion hh) (by rintro ⟨hc, -⟩; omega)
  · intro hnot
    simp only [List.mem_cons, List.not_mem_nil, or_false, not_or] at hnot
    have htag : (112 + len) / 16 = 7 := by omega
    have hl : (112 + len) % 16 = len := by omega
    unfold compact_tlv
    dsimp only
    rw [htag, hl, if_neg (by norm_num : ¬ (7 : ℕ) = 1),
        if_neg (by norm_num : ¬ (7 : ℕ) = 2), if_neg (by norm_num : ¬ (7 : ℕ) = 3),
        if_neg (by norm_num : ¬ (7 : ℕ) = 4), if_neg (by norm_num : ¬ (7 : ℕ) = 5),
        if_neg (by norm_num : ¬ (7 : ℕ) = 6), if_pos (rfl : (7 : ℕ) = 7),
        if_neg hnot.1, if_neg hnot.2.1, if_neg hnot.2.2]
  · rfl
  · rfl

/-- C5 witness: the bare tag byte `0x81` fails the step; tag 7 with
length 4 renders `wrong ATR`. -/
theorem c5_tlv_walk_amended_witness :
    ((isOkE (compact_tlv [129]) = false) ↔ 129 = 129 ∧ ([] : List ℕ) = []) ∧
    compact_tlv [116] = .ok (tlvHead 7 4 ++ "      wrong ATR",
      [.s "card capabilities"], [], none) :=
  ⟨(c5_tlv_walk_amended 129 4 [] (by decide)).1,
   (c5_tlv_walk_amended 129 4 [] (by decide)).2.1 (by decide)⟩

/-! ### C2: the interface-byte chain walk refines its specification -/

/-- The interface-byte chain walk exactly as the specification words
it: for protocol index `i` starting at 1 with `TDi = T0`, the four
presence flags are the top four bits of the *current* `TDi` (one per
letter A/B/C/D, re-evaluated every iteration), each present byte is
consumed in the fixed order TA, TB, TC, TD, a TD byte replaces `TDi`
and only then does the protocol index increment, and the chain stops
at the first block whose TD presence bit is clear.  Returns the four
assoc lists and the final protocol number. -/
def specChainWalk (bs : List ℕ) : ℕ → ℕ → List (ℕ × ℕ) → List (ℕ × ℕ) →
    List (ℕ × ℕ) → List (ℕ × ℕ) → ℕ → ℕ →
    Except String (List (ℕ × ℕ) × List (ℕ × ℕ) × List (ℕ × ℕ) × List (ℕ × ℕ) × ℕ)
  | 0, _, _, _, _, _, _, _ => .error "OUT OF FUEL"
  | fuel + 1, TDi, TAl, TBl, TCl, TDl, pn, p =>
    if p < bs.length then
      match readIf (TDi.testBit 4) bs (p + 1) with
      | .error e => .error e
      | .ok vA =>
        let nA := if vA.isSome then 1 else 0
        match readIf (TDi.testBit 5) bs (p + 1 + nA) with
        | .error e => .error e
        | .ok vB =>
          let nB := if vB.isSome then 1 else 0
          match readIf (TDi.testBit 6) bs (p + 1 + nA + nB) with
          | .error e => .error e
          | .ok vC =>
            let nC := if vC.isSome then 1 else 0
            if TDi.testBit 7 then
              match readAt bs (p + 1 + nA + nB + nC) with
              | .error e => .error e
              | .ok vD =>
                specChainWalk bs fuel vD (appOpt TAl pn vA) (appOpt TBl pn vB)
                  (appOpt TCl pn vC) (TDl ++ [(pn, vD)]) (pn + 1)
                  (p + 1 + nA + nB + nC)
            else
              .ok (appOpt TAl pn vA, appOpt TBl pn vB, appOpt TCl pn vC, TDl, pn)
    else
      .ok (TAl, TBl, TCl, TDl, pn)

set_option maxRecDepth 4000 in
/-- For a byte, the `(TDi | mask) == 0xFF` tests of the source are the
four presence bits of the Y indicator. -/
theorem presence_bits : ∀ x : ℕ, x < 256 →
    (decide ((x ||| 0xEF) = 0xFF) = x.testBit 4) ∧
    (decide ((x ||| 0xDF) = 0xFF) = x.testBit 5) ∧
    (decide ((x ||| 0xBF) = 0xFF) = x.testBit 6) ∧
    (decide ((x ||| 0x7F) = 0xFF) = x.testBit 7) := by
  decide

/-- A successful indexed read returns a list element. -/
theorem readAt_mem (bs : List ℕ) (i v : ℕ) (h : readAt bs i = .ok v) : v ∈ bs := by
  unfold readAt at h
  cases hg : bs.get? i with
  | none => rw [hg] at h; simp at h
  | some w =>
    rw [hg] at h
    simp only [Except.ok.injEq] at h
    subst h
    exact List.get?_mem hg

/-- The source chain loop agrees step by step with the
specification-worded walk. -/
theorem chainLoop_refines (bs : List ℕ) (hbs : ∀ b ∈ bs, b < 256) :
    ∀ (fuel TDi : ℕ) (TAl TBl TCl TDl : List (ℕ × ℕ)) (pn p : ℕ) (tck : Bool)
      (st : ChainState), TDi < 256 →
      chainLoop bs fuel TDi TAl TBl TCl TDl pn p tck = .ok st →
      specChainWalk bs fuel TDi TAl TBl TCl TDl pn p =
        .ok (st.TA, st.TB, st.TC, st.TD, st.pn) := by
  intro fuel
  induction fuel with
  | zero =>
    intro TDi TAl TBl TCl TDl pn p tck st hT h
    simp [chainLoop] at h
  | succ n ih =>
    intro TDi TAl TBl TCl TDl pn p tck st hT h
    obtain ⟨e1, e2, e3, e4⟩ := presence_bits TDi hT
    simp only [chainLoop] at h
    simp only [specChainWalk]
    rw [← e1, ← e2, ← e3, ← e4]
    by_cases hp : p < bs.length
    · rw [if_pos hp] at h ⊢
      cases hA : readIf (decide ((TDi ||| 0xEF) = 0xFF)) bs (p + 1) with
      | error e => rw [hA] at h; simp at h
      | ok vA =>
        rw [hA] at h
        dsimp only at h ⊢
        cases hB : readIf (decide ((TDi ||| 0xDF) = 0xFF)) bs
            (p + 1 + if vA.isSome then 1 else 0) with
        | error e => rw [hB] at h; simp at h
        | ok vB =>
          rw [hB] at h
          dsimp only at h ⊢
          cases hC : readIf (decide ((TDi ||| 0xBF) = 0xFF)) bs
              (p + 1 + (if vA.isSome then 1 else 0) + if vB.isSome then 1 else 0) with
          | error e => rw [hC] at h; simp at h
          | ok vC =>
            rw [hC] at h
            dsimp only at h ⊢
            by_cases hdp : (TDi ||| 0x7F) = 0xFF
            · have hdb : decide ((TDi ||| 0x7F) = 0xFF) = true := decide_eq_true hdp
              rw [if_pos hdp] at h
              rw [if_pos hdb]
              cases hD : readAt bs (p + 1 + (if vA.isSome then 1 else 0) +
                  (if vB.isSome then 1 else 0) + if vC.isSome then 1 else 0) with
              | error e => rw [hD] at h; simp at h
              | ok vD =>
                rw [hD] at h
                dsimp only at h ⊢
                exact ih vD _ _ _ _ _ _ _ _ (hbs vD (readAt_mem _ _ _ hD)) h
            · have hdb : ¬ (decide ((TDi ||| 0x7F) = 0xFF) = true) := by
                simpa using hdp
              rw [if_neg hdp] at h
              rw [if_neg hdb]
              simp only [Except.ok.injEq] at h
              subst h
              rfl
    · rw [if_neg hp] at h ⊢
      simp only [Except.ok.injEq] at h
      subst h
      rfl

/-- Every byte produced by the normalizer is below 256. -/
theorem hexVal_lt (c : Char) (v : ℕ) (h : hexVal c = some v) : v < 16 := by
  unfold hexVal at h
  dsimp only at h
  split_ifs at h <;> simp only [Option.some.injEq] at h <;> omega

theorem parsePairs_lt : ∀ (cs : List Char) (bs : List ℕ),
    parsePairs cs = .ok bs → ∀ b ∈ bs, b < 256
  | [], bs, h, b, hb => by
    simp only [parsePairs, Except.ok.injEq] at h
    subst h
    simp at hb
  | [c], bs, h, b, hb => by
    simp [parsePairs] at h
  | c1 :: c2 :: rest, bs, h, b, hb => by
    unfold parsePairs at h
    cases hv1 : hexVal c1 with
    | none => rw [hv1] at h; simp at h
    | some hn =>
      cases hv2 : hexVal c2 with
      | none => rw [hv1, hv2] at h; simp at h
      | some ln =>
        rw [hv1, hv2] at h
        dsimp only at h
        cases hr : parsePairs rest with
        | error e => rw [hr] at h; simp at h
        | ok tl =>
          rw [hr] at h
          simp only [Except.ok.injEq] at h
          subst h
          cases hb with
          | head =>
            have := hexVal_lt c1 hn hv1
            have := hexVal_lt c2 ln hv2
            omega
          | tail _ htl => exact parsePairs_lt rest tl hr b htl
termination_by cs => cs.length

theorem normalize_lt (s : String) (bs : List ℕ) (h : normalize s = .ok bs) :
    ∀ b ∈ bs, b < 256 := by
  unfold normalize normalizeChars at h
  dsimp only at h
  split_ifs at h
  exact parsePairs_lt _ _ h

/-- Projection from the decomposed record's fields back to plain
`(index, value)` pairs. -/
def stripField (kv : ℕ × Field) : ℕ × ℕ := (kv.1, kv.2.value)

theorem strip_toField (l : List (ℕ × ℕ)) : (l.map toField).map stripField = l := by
  induction l with
  | nil => rfl
  | cons kv tl ih => simp [toField, stripField, ih]

/-- C2: for every successfully decomposed ATR, the interface bytes and
protocol count that `decomposeATR` records are exactly those of the
specification-worded walk (presence = the A/B/C/D bits of the current
TDi, re-tested each iteration; fixed TA, TB, TC, TD order; `TDi`
replaced and the index incremented only on a TD byte; stop on a clear
TD bit). -/
theorem c2_chain_refines_spec (s : String) (bs : List ℕ) (r : ATRRec)
    (hn : normalize s = .ok bs) (hd : decomposeFromBytes bs = .ok r) :
    specChainWalk bs bs.length r.T0.value [] [] [] [] 1 1 =
      .ok (r.TA.map stripField, r.TB.map stripField, r.TC.map stripField,
           r.TD.map stripField, r.pn) := by
  unfold decomposeFromBytes at hd
  cases h0 : bs.get? 0 with
  | none => rw [h0] at hd; simp at hd
  | some ts =>
    cases h1 : bs.get? 1 with
    | none => rw [h0, h1] at hd; simp at hd
    | some t0 =>
      rw [h0, h1] at hd
      dsimp only at hd
      cases hc : chainLoop bs bs.length t0 [] [] [] [] 1 1 false with
      | error e => rw [hc] at hd; simp at hd
      | ok st =>
        rw [hc] at hd
        simp only [Except.ok.injEq] at hd
        subst hd
        simp only [strip_toField]
        exact chainLoop_refines bs (normalize_lt s bs hn) bs.length t0 [] [] [] [] 1 1
          false st (normalize_lt s bs hn t0 (List.get?_mem h1)) hc

/-- C2 witness: the reference ATR `3B A7 ...` instantiates the
refinement (the walk records TB1, TC2, TD1 and pn = 2). -/
theorem c2_chain_refines_spec_witness :
    specChainWalk [59, 167, 0, 64, 24, 128, 101, 162, 8, 1, 1, 82] 12 167 [] [] [] [] 1 1 =
      .ok ([], [(1, 0)], [(2, 24)], [(1, 64)], 2) := by
  have h := c2_chain_refines_spec "3B A7 00 40 18 80 65 A2 08 01 01 52"
    [59, 167, 0, 64, 24, 128, 101, 162, 8, 1, 1, 82]
    { atr := [59, 167, 0, 64, 24, 128, 101, 162, 8, 1, 1, 82],
      TS := ⟨59, none⟩, T0 := ⟨167, none⟩,
      TA := [], TB := [(1, ⟨0, none⟩)], TC := [(2, ⟨24, none⟩)],
      TD := [(1, ⟨64, none⟩)],
      pn := 2, hbn := 7, hbVal := [128, 101, 162, 8, 1, 1, 82],
      hbDesc := none, tck := none, extra := none, warning := none }
    (by decide) (by decide)
  simpa using h

set_option maxHeartbeats 2000000 in
/-- C1 witness: on `3B 80 01 00` the expected checksum is
`0x80 XOR 0x01 = 0x81` and the zero TCK byte is flagged wrong. -/
theorem c1_checksum_amended_witness :
    (compute_tck [59, 128, 1, 0] = xorAll (([59, 128, 1, 0].drop 1).dropLast) ∧
     (compute_tck [59, 128, 1, 0] = [59, 128, 1, 0].getLastD 0 ↔
       xorAll ([59, 128, 1, 0].drop 1) = 0)) ∧
    tckExampleOut.1.tck = some ⟨0, some (.str
      ("WRONG CHECKSUM, expected 0x" ++ byteHex (compute_tck tckExampleRec.atr)))⟩ :=
  ⟨c1_checksum_amended.1 [59, 128, 1, 0] (by decide),
   c1_checksum_amended.2 (-1) tckExampleRec tckExampleOut (by decide) ⟨0, none⟩ rfl (by decide)⟩

end ParseATR






